import Mathlib

/-!
Shallow embedding of the parci local encrypted parameter store
(src/parci/internals/parameter_store/local and its collaborators
src/parci/internals/storage.py, src/parci/config.py), together with
theorems settling the claims about it.

Modelling conventions:
* Python byte strings are `List Nat`.
* External library primitives (PyNaCl SecretBox, argon2id KDF, blake2b,
  base64, `unicodedata.normalize`, `json.dumps`/`json.loads`) are not
  repository code; they are modelled as idealized executable functions
  that keep exactly the properties the libraries document (authenticated
  encryption reveals the message only under the encryption key and fails
  loudly otherwise, the KDF and the keyed hash are deterministic functions
  of their inputs, the codecs are injective with matching decoders).
* Python exceptions become an inductive `PyExc` carrying the exception
  class and the message found in the source.
* Mutating operations thread the database state explicitly and return
  `Except PyExc _ × State`, so that "raises and leaves the state
  unchanged" is a provable equation.  Random byte strings drawn by the
  source (`nacl.utils.random`) are explicit arguments.
-/

deriving instance DecidableEq for Except

/-- Python byte string: a list of byte values. -/
abbrev Bytes := List Nat

/-- JSON-serializable Python values: what the store accepts as secret
names and values (the domain of `json.dumps` and range of `json.loads`). -/
inductive UVal where
  | null
  | bool (b : Bool)
  | num (n : Int)
  | str (s : String)
  | arr (elems : List UVal)
  | obj (fields : List (String × UVal))

mutual

/-- Structural equality test on `UVal`, written by hand because `deriving
DecidableEq` does not yet handle this nested inductive. -/
def UVal.beq : UVal → UVal → Bool
  | .null, .null => true
  | .bool a, .bool b => a = b
  | .num a, .num b => a = b
  | .str a, .str b => a = b
  | .arr as, .arr bs => UVal.beqList as bs
  | .obj as, .obj bs => UVal.beqFields as bs
  | _, _ => false
termination_by structural a => a

/-- Pointwise `UVal.beq` on lists. -/
def UVal.beqList : List UVal → List UVal → Bool
  | [], [] => true
  | a :: as, b :: bs => a.beq b && UVal.beqList as bs
  | _, _ => false
termination_by structural a => a

/-- Pointwise `UVal.beq` on JSON object fields. -/
def UVal.beqFields : List (String × UVal) → List (String × UVal) → Bool
  | [], [] => true
  | (k, a) :: as, (l, b) :: bs => decide (k = l) && a.beq b && UVal.beqFields as bs
  | _, _ => false
termination_by structural a => a

end

mutual

/-- Correctness of `UVal.beq` (a definition so that the decidable-equality
instance below can be set up before any theorem). -/
def UVal.beq_correct : ∀ a b : UVal, UVal.beq a b = true ↔ a = b
  | .null, b => by cases b <;> simp [UVal.beq]
  | .bool x, b => by cases b <;> simp [UVal.beq]
  | .num x, b => by cases b <;> simp [UVal.beq]
  | .str x, b => by cases b <;> simp [UVal.beq]
  | .arr as, b => by
      cases b <;> simp [UVal.beq, UVal.beqList_correct as]
  | .obj as, b => by
      cases b <;> simp [UVal.beq, UVal.beqFields_correct as]
termination_by structural a => a

/-- Correctness of `UVal.beqList`. -/
def UVal.beqList_correct : ∀ as bs : List UVal, UVal.beqList as bs = true ↔ as = bs
  | [], bs => by cases bs <;> simp [UVal.beqList]
  | a :: as, bs => by
      cases bs with
      | nil => simp [UVal.beqList]
      | cons b bs => simp [UVal.beqList, UVal.beq_correct a b, UVal.beqList_correct as bs]
termination_by structural as => as

/-- Correctness of `UVal.beqFields`. -/
def UVal.beqFields_correct :
    ∀ as bs : List (String × UVal), UVal.beqFields as bs = true ↔ as = bs
  | [], bs => by cases bs <;> simp [UVal.beqFields]
  | (k, a) :: as, bs => by
      cases bs with
      | nil => simp [UVal.beqFields]
      | cons p bs =>
        obtain ⟨l, v⟩ := p
        simp only [UVal.beqFields, Bool.and_eq_true, decide_eq_true_eq,
          UVal.beq_correct a v, UVal.beqFields_correct as bs, List.cons.injEq,
          Prod.mk.injEq]
termination_by structural as => as

end

instance : DecidableEq UVal := fun a b => decidable_of_iff _ (UVal.beq_correct a b)

/-- Python exception, as class (constructor) plus message.  `keyError` is
builtin `KeyError`, `valueError` builtin `ValueError`, `typeError` builtin
`TypeError`, `indexError` builtin `IndexError`, `cryptoError` is
`nacl.exceptions.CryptoError`, `keyringError` the keyring backend errors,
and `parameterStoreException` is
`parci.internals.parameter_store.ParameterStoreException`. -/
inductive PyExc where
  | keyError (msg : String)
  | valueError (msg : String)
  | typeError (msg : String)
  | indexError (msg : String)
  | cryptoError (msg : String)
  | keyringError (msg : String)
  | parameterStoreException (msg : String)
deriving DecidableEq

/-- The Python class of an exception: what `except SomeError:` dispatches
on, i.e. all a caller can distinguish by exception type alone. -/
def PyExc.excClass : PyExc → String
  | .keyError _ => "KeyError"
  | .valueError _ => "ValueError"
  | .typeError _ => "TypeError"
  | .indexError _ => "IndexError"
  | .cryptoError _ => "CryptoError"
  | .keyringError _ => "KeyringError"
  | .parameterStoreException _ => "ParameterStoreException"

/-! ## PyNaCl primitives (external library, idealized) -/

/-- `nacl.secret.SecretBox.KEY_SIZE`. -/
def KEY_SIZE : Nat := 32

/-- `nacl.secret.SecretBox.NONCE_SIZE`. -/
def NONCE_SIZE : Nat := 24

/-- `nacl.pwhash.argon2id.SALTBYTES`. -/
def SALTBYTES : Nat := 16

/-- `nacl.pwhash.argon2id.OPSLIMIT_SENSITIVE`. -/
def OPSLIMIT_SENSITIVE : Nat := 4

/-- `nacl.pwhash.argon2id.MEMLIMIT_SENSITIVE`. -/
def MEMLIMIT_SENSITIVE : Nat := 1073741824

/-- A `nacl.secret.SecretBox` authenticated ciphertext with message type
`α` (either raw key bytes or a serialized JSON document), modelled as the
data the real ciphertext binds: encryption key, nonce, and message.  The
model is ideal: decryption under the key recovers the message, decryption
under any other key fails authentication. -/
structure SBCipher (α : Type) where
  key : Bytes
  nonce : Bytes
  msg : α
deriving DecidableEq

/-- `nacl.secret.SecretBox(key).encrypt(msg, nonce)`. -/
def sbEncrypt {α : Type} (key nonce : Bytes) (msg : α) : SBCipher α :=
  ⟨key, nonce, msg⟩

/-- The error `nacl.secret.SecretBox.decrypt` raises on a wrong key or a
tampered ciphertext. -/
def DECRYPT_FAILED : PyExc :=
  .cryptoError "Decryption failed. Ciphertext failed verification"

/-- `nacl.secret.SecretBox(key).decrypt(c)`: authenticated decryption,
failing loudly unless the ciphertext was produced under `key`. -/
def sbDecrypt {α : Type} (key : Bytes) (c : SBCipher α) : Except PyExc α :=
  if c.key = key then .ok c.msg else .error DECRYPT_FAILED

/-- `nacl.pwhash.argon2id.kdf(keysize, password, salt, opslimit, memlimit)`:
the external memory-hard KDF, modelled as an injective deterministic
function of all of its inputs. -/
def argon2id_kdf (keysize : Nat) (password salt : Bytes)
    (opslimit memlimit : Nat) : Bytes :=
  keysize :: opslimit :: memlimit :: password.length :: (password ++ salt)

/-! ## Unicode and UTF-8 (external library, idealized) -/

/-- Compatibility decomposition of a single character: a small executable
fragment of the NFKC table (`unicodedata.normalize("NFKC", ...)`), enough
to exhibit genuinely distinct NFKC-equivalent passwords.  U+FB01 is the
fi ligature, U+2460 the circled digit one, U+00A0 the no-break space;
everything else is left fixed. -/
def nfkcChar (c : Char) : List Char :=
  if c = 'ﬁ' then ['f', 'i']
  else if c = '①' then ['1']
  else if c = ' ' then [' ']
  else [c]

/-- `unicodedata.normalize("NFKC", s)`, on the modelled fragment of the
compatibility table. -/
def nfkc (s : String) : String :=
  ((s.data.map nfkcChar).flatten).asString

/-- `str.encode("utf-8")`, modelled injectively as the code-point
sequence. -/
def utf8 (s : String) : Bytes :=
  s.data.map Char.toNat

/-! ## src/parci/internals/parameter_store/local/encrypt/password.py -/

/-- `get_user_decrypt_key(password, salt, keysize, opslimit, memlimit)`:
derive a key-encryption-key from a password and salt. -/
def get_user_decrypt_key (password salt : Bytes)
    (keysize opslimit memlimit : Nat) : Bytes :=
  argon2id_kdf keysize password salt opslimit memlimit

/-! ## Persisted records and the tkv table (src/parci/internals/storage.py)

The single SQLite table `tkv (table_name, key, value, UNIQUE (table_name,
key) ON CONFLICT REPLACE)` is a list of rows in insertion order.  The key
and value columns hold text; the distinct text shapes the source writes
(config names vs. hex digests; JSON records vs. base64 ciphertexts) are
modelled as constructors of `KCol`/`VCol`, which is faithful because the
underlying encodings are injective with disjoint ranges (a 128-character
hex digest is never a config name, distinct JSON dicts have distinct
serializations, and so on). -/

/-- The `"password"` UnlockRecord written by `init` (a JSON dict in the
config table). -/
structure PasswordRecord where
  salt : Bytes
  keysize : Nat
  opslimit : Nat
  memlimit : Nat
  name_key : SBCipher Bytes
  value_key : SBCipher Bytes
deriving DecidableEq

/-- The `"keyring"` UnlockRecord written by `register_keyring`. -/
structure KeyringRecord where
  name_key : SBCipher Bytes
  value_key : SBCipher Bytes
deriving DecidableEq

/-- The `"yubikey:<serial>"` UnlockRecord written by `register_yubikey`. -/
structure YubikeyRecord where
  slot : Nat
  challenge : Bytes
  salt : Bytes
  keysize : Nat
  opslimit : Nat
  memlimit : Nat
  name_key : SBCipher Bytes
  value_key : SBCipher Bytes
deriving DecidableEq

/-- Contents of the tkv key column: either a plain config name such as
`"password"` or `"default-open-method"`, or the keyed blake2b hex digest
`naclhash.blake2b(json.dumps(item).encode(), key=name_key,
encoder=HexEncoder)` that `ParameterStore._calc_key` produces.  The digest
is modelled ideally as the injective pair (key, hashed item); a real
digest string never collides with a config name. -/
inductive KCol where
  | name (s : String)
  | dg (key : Bytes) (item : UVal)
deriving DecidableEq

/-- Contents of the tkv value column: a serialized UnlockRecord, a JSON
string scalar (the default-open-method pointer), or the base64 text of a
SecretBox ciphertext of a JSON document (a secret record). -/
inductive VCol where
  | pw (r : PasswordRecord)
  | kr (r : KeyringRecord)
  | yk (r : YubikeyRecord)
  | jstr (s : String)
  | blob (c : SBCipher UVal)
deriving DecidableEq

/-- One row of the tkv table. -/
structure Row where
  table : String
  key : KCol
  value : VCol
deriving DecidableEq

/-- The tkv table: rows in insertion order. -/
abbrev DB := List Row

/-- Does row `r` match table name `t` and key `k` (the WHERE clause of
every point query in `SqliteKV`)? -/
def rowMatch (t : String) (k : KCol) (r : Row) : Bool :=
  decide (r.table = t) && decide (r.key = k)

/-- `SELECT value FROM tkv WHERE table_name = t AND key = k` (first row if
any); the `UNIQUE (table_name, key)` constraint keeps at most one. -/
def dbGet : DB → String → KCol → Option VCol
  | [], _, _ => none
  | r :: rest, t, k => if rowMatch t k r then some r.value else dbGet rest t k

/-- `SqliteKV.__contains__`: does a row exist under `(t, k)`? -/
def dbContains (db : DB) (t : String) (k : KCol) : Bool :=
  (dbGet db t k).isSome

/-- `SqliteKV.__setitem__`: upsert under the `UNIQUE (table_name, key) ON
CONFLICT REPLACE` constraint — update the existing row in place, else
append. -/
def dbSet : DB → String → KCol → VCol → DB
  | [], t, k, v => [⟨t, k, v⟩]
  | r :: rest, t, k, v =>
      if rowMatch t k r then ⟨t, k, v⟩ :: rest else r :: dbSet rest t k v

/-- `SqliteKV.__delitem__`: `DELETE FROM tkv WHERE table_name = t AND key
= k`; deleting an absent key is a no-op, not an error. -/
def dbDel (db : DB) (t : String) (k : KCol) : DB :=
  db.filter (fun r => !rowMatch t k r)

/-- Does row `r` belong to table `t`? -/
def tableIs (t : String) (r : Row) : Bool :=
  decide (r.table = t)

/-- `SELECT value FROM tkv WHERE table_name = t`, in row order
(`SqliteKV.values`). -/
def dbValues (db : DB) (t : String) : List VCol :=
  (db.filter (tableIs t)).map Row.value

/-- `SqliteKV.__getitem__`: fetch, raising `KeyError("Key does not
exist")` when no row matches. -/
def kvGet (db : DB) (t : String) (k : KCol) : Except PyExc VCol :=
  match dbGet db t k with
  | some v => .ok v
  | none => .error (PyExc.keyError "Key does not exist")

/-! ## src/parci/config.py -/

/-- `config.PARAMETER_READ_ONLY`: the process-wide read-only flag; its
value in config.py is `True`, and mutating operations take the current
flag value as an explicit argument. -/
def PARAMETER_READ_ONLY : Bool := true

/-! ## src/parci/internals/parameter_store/local/__init__.py -/

/-- The spec's `NotFound`: the exception `SqliteKV.__getitem__` raises
for a missing row, surfacing from `ParameterStore.__getitem__` on a
never-set name. -/
def NotFound : PyExc := .keyError "Key does not exist"

/-- The spec's `PermissionDenied`: the exception
`ParameterStore.__setitem__` and `__delitem__` raise at the read-only
gate. -/
def PermissionDenied : PyExc := .keyError "ParameterStore is read-only"

/-- The two store-wide secret keys an unlocked `ParameterStore` holds
(`self._name_key`, `self._value_key`). -/
structure PSKeys where
  name_key : Bytes
  value_key : Bytes
deriving DecidableEq

/-- `ParameterStore._calc_key`: keyed blake2b hex digest of
`json.dumps(item).encode("utf-8")` under `self._name_key`. -/
def calc_key (name_key : Bytes) (item : UVal) : KCol :=
  KCol.dg name_key item

/-- Interpret a value-column entry as the base64 text of a SecretBox
ciphertext (`decode_bytes` on a params-table value); any other column
content is not valid base64 of a ciphertext. -/
def blobCipher : VCol → Except PyExc (SBCipher UVal)
  | .blob c => .ok c
  | _ => .error (PyExc.valueError "Invalid base64-encoded string")

/-- `json.loads(value)[1]` as `ParameterStore.__getitem__` applies it to
the decrypted record: index 1 of the decoded JSON array. -/
def jsonIndex1 : UVal → Except PyExc UVal
  | .arr (_ :: v :: _) => .ok v
  | .arr _ => .error (PyExc.indexError "list index out of range")
  | _ => .error (PyExc.typeError "value is not subscriptable")

/-- `ParameterStore.__getitem__`: digest the name, fetch by digest from
the params table, base64-decode, authenticated-decrypt under the value
key, parse, return component 1 of the `[name, value]` pair. -/
def ps_getitem (ps : PSKeys) (db : DB) (item : UVal) : Except PyExc UVal :=
  match kvGet db "params" (calc_key ps.name_key item) with
  | .error e => .error e
  | .ok v =>
    match blobCipher v with
    | .error e => .error e
    | .ok c =>
      match sbDecrypt ps.value_key c with
      | .error e => .error e
      | .ok doc => jsonIndex1 doc

/-- `ParameterStore.__setitem__`: read-only gate first, then digest the
name, encrypt `json.dumps([item, value])` under the value key with the
fresh `nonce`, and upsert the base64 blob under the digest. -/
def ps_setitem (ps : PSKeys) (ro : Bool) (db : DB) (item value : UVal)
    (nonce : Bytes) : Except PyExc Unit × DB :=
  if ro then (.error PermissionDenied, db)
  else
    let db_key := calc_key ps.name_key item
    let c := sbEncrypt ps.value_key nonce (UVal.arr [item, value])
    (.ok (), dbSet db "params" db_key (VCol.blob c))

/-- `ParameterStore.__delitem__`: read-only gate first, then delete the
row under the digest. -/
def ps_delitem (ps : PSKeys) (ro : Bool) (db : DB) (item : UVal) :
    Except PyExc Unit × DB :=
  if ro then (.error PermissionDenied, db)
  else (.ok (), dbDel db "params" (calc_key ps.name_key item))

/-- `ParameterStore.__contains__`: digest lookup, no decryption. -/
def ps_contains (ps : PSKeys) (db : DB) (item : UVal) : Bool :=
  dbContains db "params" (calc_key ps.name_key item)

/-- Decode one params-table value the way the loop body of
`ParameterStore.items` does: base64-decode, decrypt, `k, v =
json.loads(value)`. -/
def decodeItem (value_key : Bytes) (v : VCol) : Except PyExc (UVal × UVal) :=
  match blobCipher v with
  | .error e => .error e
  | .ok c =>
    match sbDecrypt value_key c with
    | .error e => .error e
    | .ok doc =>
      match doc with
      | .arr [k, v] => .ok (k, v)
      | _ => .error (PyExc.valueError "cannot unpack secret record")

/-- The `ParameterStore.items` generator run to completion over the given
column values (it stops at the first failing row). -/
def ps_items_list (value_key : Bytes) : List VCol → Except PyExc (List (UVal × UVal))
  | [] => .ok []
  | v :: rest =>
    match decodeItem value_key v with
    | .error e => .error e
    | .ok p =>
      match ps_items_list value_key rest with
      | .error e => .error e
      | .ok ps => .ok (p :: ps)

/-- `ParameterStore.items`: scan every params-table value, decrypting each
row. -/
def ps_items (ps : PSKeys) (db : DB) : Except PyExc (List (UVal × UVal)) :=
  ps_items_list ps.value_key (dbValues db "params")

/-- `ParameterStore.keys`: first projection of `items`. -/
def ps_keys (ps : PSKeys) (db : DB) : Except PyExc (List UVal) :=
  (ps_items ps db).map (List.map Prod.fst)

/-- `ParameterStore.values`: second projection of `items`. -/
def ps_values (ps : PSKeys) (db : DB) : Except PyExc (List UVal) :=
  (ps_items ps db).map (List.map Prod.snd)

/-! ## Unlock method registry -/

/-- The random byte strings `init` draws via `nacl.utils.random`: the KDF
salt, the two fresh store-wide keys, and the two wrapping nonces. -/
structure InitRandom where
  salt : Bytes
  name_key : Bytes
  name_nonce : Bytes
  value_key : Bytes
  value_nonce : Bytes
deriving DecidableEq

/-- `init()` from parameter_store/local/__init__.py: refuse to
re-initialize, require the two interactively entered passwords (the
arguments here) to match, then derive the password KEK, wrap the fresh
NameKey/ValueKey, write the `"password"` UnlockRecord and point
`"default-open-method"` at it.  Returns the outcome together with the
config database state afterward. -/
def init (db : DB) (password1 password2 : String) (r : InitRandom) :
    Except PyExc Unit × DB :=
  if dbContains db "config" (KCol.name "password") then
    (.error (PyExc.valueError "Database already initialized"), db)
  else if password1 ≠ password2 then
    (.error (PyExc.valueError "Passwords do not match"), db)
  else
    let key := get_user_decrypt_key (utf8 (nfkc password1)) r.salt
      KEY_SIZE OPSLIMIT_SENSITIVE MEMLIMIT_SENSITIVE
    let enc_name_key := sbEncrypt key r.name_nonce r.name_key
    let enc_value_key := sbEncrypt key r.value_nonce r.value_key
    let db := dbSet db "config" (KCol.name "password")
      (VCol.pw ⟨r.salt, KEY_SIZE, OPSLIMIT_SENSITIVE, MEMLIMIT_SENSITIVE,
        enc_name_key, enc_value_key⟩)
    let db := dbSet db "config" (KCol.name "default-open-method")
      (VCol.jstr "password")
    (.ok (), db)

/-- Interpret a config value as the `"password"` UnlockRecord dict. -/
def pwRecord : VCol → Except PyExc PasswordRecord
  | .pw r => .ok r
  | _ => .error (PyExc.typeError "config record is not a password record")

/-- `get_keys_by_password(password)` from encrypt/password.py: fetch the
`"password"` UnlockRecord, derive the KEK from the given password (or the
interactive `prompted` one when `password` is `None`), and unwrap NameKey
then ValueKey. -/
def get_keys_by_password (db : DB) (password : Option String)
    (prompted : String) : Except PyExc (Bytes × Bytes) :=
  match kvGet db "config" (KCol.name "password") with
  | .error e => .error e
  | .ok v =>
    match pwRecord v with
    | .error e => .error e
    | .ok r =>
      let pw := password.getD prompted
      let decrypt_key := get_user_decrypt_key (utf8 (nfkc pw)) r.salt
        r.keysize r.opslimit r.memlimit
      match sbDecrypt decrypt_key r.name_key with
      | .error e => .error e
      | .ok nk =>
        match sbDecrypt decrypt_key r.value_key with
        | .error e => .error e
        | .ok vk => .ok (nk, vk)

/-- State of the OS keyring entry for service/account ("parci", "parci"):
the stored wrapping key (base64-decoded), plus whether the backend's
`set_password` call succeeds (a backend with no usable keyring raises). -/
structure KeyringState where
  stored : Option Bytes
  set_ok : Bool

/-- The error the keyring backend raises when `set_password` fails. -/
def KEYRING_SET_FAILED : PyExc :=
  .keyringError "No recommended backend was available"

/-- `register_keyring()` from parameter_store/local/__init__.py: resolve
NameKey/ValueKey via the password method, wrap them under a fresh random
`key`, write the `"keyring"` UnlockRecord to the config table, place the
base64 of `key` into the OS keyring, and finally repoint
`"default-open-method"`.  Note the record is written to the config table
before the keyring `set_password` call. -/
def register_keyring (db : DB) (ks : KeyringState) (password : Option String)
    (prompted : String) (key name_nonce value_nonce : Bytes) :
    Except PyExc Unit × DB × KeyringState :=
  match get_keys_by_password db password prompted with
  | .error e => (.error e, db, ks)
  | .ok (name_key, value_key) =>
    let enc_name_key := sbEncrypt key name_nonce name_key
    let enc_value_key := sbEncrypt key value_nonce value_key
    let db := dbSet db "config" (KCol.name "keyring")
      (VCol.kr ⟨enc_name_key, enc_value_key⟩)
    if ks.set_ok then
      let ks := { ks with stored := some key }
      let db := dbSet db "config" (KCol.name "default-open-method")
        (VCol.jstr "keyring")
      (.ok (), db, ks)
    else
      (.error KEYRING_SET_FAILED, db, ks)

/-- Interpret a config value as the `"keyring"` UnlockRecord dict. -/
def krRecord : VCol → Except PyExc KeyringRecord
  | .kr r => .ok r
  | _ => .error (PyExc.typeError "config record is not a keyring record")

/-- `get_keys_by_keyring()`: fetch the `"keyring"` UnlockRecord, read the
wrapping key back from the OS keyring (`get_password` returning `None`
makes `base64.b64decode` raise a `TypeError`), and unwrap both keys. -/
def get_keys_by_keyring (db : DB) (ks : KeyringState) :
    Except PyExc (Bytes × Bytes) :=
  match kvGet db "config" (KCol.name "keyring") with
  | .error e => .error e
  | .ok v =>
    match krRecord v with
    | .error e => .error e
    | .ok r =>
      match ks.stored with
      | none => .error (PyExc.typeError
          "argument should be a bytes-like object or ASCII string, not NoneType")
      | some decrypt_key =>
        match sbDecrypt decrypt_key r.name_key with
        | .error e => .error e
        | .ok nk =>
          match sbDecrypt decrypt_key r.value_key with
          | .error e => .error e
          | .ok vk => .ok (nk, vk)

/-- A YubiKey device as encrypt/yubikey.py uses it: a serial number and
the HMAC-SHA1 challenge-response function of its OTP slots. -/
structure YubiDevice where
  serial : Nat
  hmac : Nat → Bytes → Bytes

/-- `get_yubikey_decrypt_key`: feed the device's HMAC-SHA1 response to the
challenge into the same memory-hard KDF as the password path. -/
def get_yubikey_decrypt_key (dev : YubiDevice) (slot : Nat)
    (challenge salt : Bytes) (keysize opslimit memlimit : Nat) : Bytes :=
  argon2id_kdf keysize (dev.hmac slot challenge) salt opslimit memlimit

/-- The config-table key `f"yubikey:{serial}"`. -/
def ykName (serial : Nat) : String :=
  "yubikey:" ++ toString serial

/-- `register_yubikey(slot)` from encrypt/yubikey.py: resolve
NameKey/ValueKey via the password method, derive a device-bound KEK from a
fresh random challenge and salt, wrap both keys, write the full
`"yubikey:<serial>"` UnlockRecord in one config-table write, then repoint
`"default-open-method"`. -/
def register_yubikey (db : DB) (dev : YubiDevice) (slot : Nat)
    (password : Option String) (prompted : String)
    (challenge salt name_nonce value_nonce : Bytes) :
    Except PyExc Unit × DB :=
  match get_keys_by_password db password prompted with
  | .error e => (.error e, db)
  | .ok (name_key, value_key) =>
    let key := get_yubikey_decrypt_key dev slot challenge salt
      KEY_SIZE OPSLIMIT_SENSITIVE MEMLIMIT_SENSITIVE
    let enc_name_key := sbEncrypt key name_nonce name_key
    let enc_value_key := sbEncrypt key value_nonce value_key
    let db := dbSet db "config" (KCol.name (ykName dev.serial))
      (VCol.yk ⟨slot, challenge, salt, KEY_SIZE, OPSLIMIT_SENSITIVE,
        MEMLIMIT_SENSITIVE, enc_name_key, enc_value_key⟩)
    let db := dbSet db "config" (KCol.name "default-open-method")
      (VCol.jstr "yubikey")
    (.ok (), db)

/-- Interpret a config value as a `"yubikey:<serial>"` UnlockRecord. -/
def ykRecord : VCol → Except PyExc YubikeyRecord
  | .yk r => .ok r
  | _ => .error (PyExc.typeError "config record is not a yubikey record")

/-- `get_keys_by_yubikey()`: fetch the record for the attached device's
serial, re-derive the KEK from the stored challenge/salt via the device,
and unwrap both keys. -/
def get_keys_by_yubikey (db : DB) (dev : YubiDevice) :
    Except PyExc (Bytes × Bytes) :=
  match kvGet db "config" (KCol.name (ykName dev.serial)) with
  | .error e => .error e
  | .ok v =>
    match ykRecord v with
    | .error e => .error e
    | .ok r =>
      let decrypt_key := get_yubikey_decrypt_key dev r.slot r.challenge
        r.salt r.keysize r.opslimit r.memlimit
      match sbDecrypt decrypt_key r.name_key with
      | .error e => .error e
      | .ok nk =>
        match sbDecrypt decrypt_key r.value_key with
        | .error e => .error e
        | .ok vk => .ok (nk, vk)

/-! ## src/parci/internals/parameter_store/__init__.py -/

/-- The exception `ParameterStoreInterceptor` raises at its read-only
gate. -/
def PS_READ_ONLY_EXC : PyExc :=
  .parameterStoreException "config.PARAMETER_READ_ONLY is set to true"

/-- `ParameterStoreInterceptor.__setitem__` over the local driver: the
read-only gate comes before `_load_store`, so `loader` (the whole
`open_parameter_store` unlock attempt, which may prompt or fail) runs only
on the write path and only when no backend is loaded yet (`st = none`
models `self._ps is None`, the Locked state). -/
def interceptor_setitem (ro : Bool) (loader : Except PyExc PSKeys)
    (st : Option PSKeys) (db : DB) (item value : UVal) (nonce : Bytes) :
    Except PyExc Unit × Option PSKeys × DB :=
  if ro then (.error PS_READ_ONLY_EXC, st, db)
  else
    match st with
    | some ps =>
      let out := ps_setitem ps ro db item value nonce
      (out.1, some ps, out.2)
    | none =>
      match loader with
      | .error e => (.error e, none, db)
      | .ok ps =>
        let out := ps_setitem ps ro db item value nonce
        (out.1, some ps, out.2)

/-- `ParameterStoreInterceptor.__delitem__`, same gate-then-load shape. -/
def interceptor_delitem (ro : Bool) (loader : Except PyExc PSKeys)
    (st : Option PSKeys) (db : DB) (item : UVal) :
    Except PyExc Unit × Option PSKeys × DB :=
  if ro then (.error PS_READ_ONLY_EXC, st, db)
  else
    match st with
    | some ps =>
      let out := ps_delitem ps ro db item
      (out.1, some ps, out.2)
    | none =>
      match loader with
      | .error e => (.error e, none, db)
      | .ok ps =>
        let out := ps_delitem ps ro db item
        (out.1, some ps, out.2)

/-! ## Enumeration model (for the completeness claim)

A trace of successful mutating operations against an unlocked writable
store, and the dictionary it should denote. -/

/-- One mutating parameter-store operation, with the nonce drawn for a
set. -/
inductive POp where
  | set (name value : UVal) (nonce : Bytes)
  | del (name : UVal)

/-- Run a trace of mutating operations against the store (read-only flag
off), threading the database. -/
def run_ops (ps : PSKeys) (db : DB) : List POp → DB
  | [] => db
  | .set n v nonce :: rest => run_ops ps (ps_setitem ps false db n v nonce).2 rest
  | .del n :: rest => run_ops ps (ps_delitem ps false db n).2 rest

/-- One live secret: its name, current value, and the nonce of the write
that produced the stored blob. -/
structure SecretEntry where
  name : UVal
  value : UVal
  nonce : Bytes
deriving DecidableEq

/-- Reference dictionary update, mirroring upsert-in-place: replace the
first entry with this name, else append. -/
def entriesSet : List SecretEntry → UVal → UVal → Bytes → List SecretEntry
  | [], n, v, nonce => [⟨n, v, nonce⟩]
  | e :: rest, n, v, nonce =>
      if e.name = n then ⟨n, v, nonce⟩ :: rest else e :: entriesSet rest n v nonce

/-- Reference dictionary delete. -/
def entriesDel (m : List SecretEntry) (n : UVal) : List SecretEntry :=
  m.filter (fun e => !decide (e.name = n))

/-- The dictionary a trace of operations denotes. -/
def model_run (m : List SecretEntry) : List POp → List SecretEntry
  | [] => m
  | .set n v nonce :: rest => model_run (entriesSet m n v nonce) rest
  | .del n :: rest => model_run (entriesDel m n) rest

/-- The (name, value) pairs of a reference dictionary. -/
def entryPairs (m : List SecretEntry) : List (UVal × UVal) :=
  m.map (fun e => (e.name, e.value))

/-- The params-table row a live secret is stored as. -/
def encRow (ps : PSKeys) (e : SecretEntry) : Row :=
  ⟨"params", calc_key ps.name_key e.name,
    VCol.blob (sbEncrypt ps.value_key e.nonce (UVal.arr [e.name, e.value]))⟩

/-- The params-table fragment of the database. -/
def paramsRows (db : DB) : DB :=
  db.filter (tableIs "params")

/-! ## Helper lemmas about the tkv table -/

theorem rowMatch_iff {t : String} {k : KCol} {r : Row} :
    rowMatch t k r = true ↔ r.table = t ∧ r.key = k := by
  simp [rowMatch]

theorem rowMatch_self (t : String) (k : KCol) (v : VCol) :
    rowMatch t k ⟨t, k, v⟩ = true := by
  simp [rowMatch]

theorem dbGet_cons_pos {t : String} {k : KCol} {r : Row} (rest : DB)
    (h : rowMatch t k r = true) : dbGet (r :: rest) t k = some r.value := by
  simp [dbGet, h]

theorem dbGet_cons_neg {t : String} {k : KCol} {r : Row} (rest : DB)
    (h : ¬rowMatch t k r = true) : dbGet (r :: rest) t k = dbGet rest t k := by
  simp [dbGet, h]

theorem dbSet_cons_pos {t : String} {k : KCol} {r : Row} (rest : DB) (v : VCol)
    (h : rowMatch t k r = true) :
    dbSet (r :: rest) t k v = ⟨t, k, v⟩ :: rest := by
  simp [dbSet, h]

theorem dbSet_cons_neg {t : String} {k : KCol} {r : Row} (rest : DB) (v : VCol)
    (h : ¬rowMatch t k r = true) :
    dbSet (r :: rest) t k v = r :: dbSet rest t k v := by
  simp [dbSet, h]

theorem dbGet_dbSet_self (db : DB) (t : String) (k : KCol) (v : VCol) :
    dbGet (dbSet db t k v) t k = some v := by
  induction db with
  | nil => exact dbGet_cons_pos [] (rowMatch_self t k v)
  | cons r rest ih =>
    by_cases h : rowMatch t k r = true
    · rw [dbSet_cons_pos rest v h, dbGet_cons_pos rest (rowMatch_self t k v)]
    · rw [dbSet_cons_neg rest v h, dbGet_cons_neg _ h, ih]

theorem dbGet_dbSet_ne (db : DB) {t t' : String} {k k' : KCol} (v : VCol)
    (h : ¬(t = t' ∧ k = k')) :
    dbGet (dbSet db t' k' v) t k = dbGet db t k := by
  have hm : ¬rowMatch t k ⟨t', k', v⟩ = true := by
    intro hc
    rcases rowMatch_iff.mp hc with ⟨h1, h2⟩
    exact h ⟨h1.symm, h2.symm⟩
  induction db with
  | nil => rw [show dbSet [] t' k' v = [⟨t', k', v⟩] from rfl,
      dbGet_cons_neg _ hm]
  | cons r rest ih =>
    by_cases hr : rowMatch t' k' r = true
    · have hrk : ¬rowMatch t k r = true := by
        intro hc
        rcases rowMatch_iff.mp hc with ⟨h1, h2⟩
        rcases rowMatch_iff.mp hr with ⟨h3, h4⟩
        exact h ⟨h1 ▸ h3 ▸ rfl, h2 ▸ h4 ▸ rfl⟩
      rw [dbSet_cons_pos rest v hr, dbGet_cons_neg _ hm, dbGet_cons_neg _ hrk]
    · by_cases hk : rowMatch t k r = true
      · rw [dbSet_cons_neg rest v hr, dbGet_cons_pos _ hk, dbGet_cons_pos _ hk]
      · rw [dbSet_cons_neg rest v hr, dbGet_cons_neg _ hk, dbGet_cons_neg _ hk, ih]

theorem kvGet_dbSet_ne (db : DB) {t t' : String} {k k' : KCol} (v : VCol)
    (h : ¬(t = t' ∧ k = k')) :
    kvGet (dbSet db t' k' v) t k = kvGet db t k := by
  simp [kvGet, dbGet_dbSet_ne db v h]

theorem tableIs_of_rowMatch {t : String} {k : KCol} {r : Row}
    (h : rowMatch t k r = true) : tableIs t r = true := by
  simp [tableIs, (rowMatch_iff.mp h).1]

theorem filter_dbSet_same (db : DB) (t : String) (k : KCol) (v : VCol) :
    (dbSet db t k v).filter (tableIs t) = dbSet (db.filter (tableIs t)) t k v := by
  induction db with
  | nil =>
    rw [show dbSet ([] : DB) t k v = [⟨t, k, v⟩] from rfl, List.filter_nil,
      List.filter_cons_of_pos (tableIs_of_rowMatch (rowMatch_self t k v)),
      List.filter_nil]
    rfl
  | cons r rest ih =>
    by_cases hr : rowMatch t k r = true
    · rw [dbSet_cons_pos rest v hr,
        List.filter_cons_of_pos (tableIs_of_rowMatch (rowMatch_self t k v)),
        List.filter_cons_of_pos (tableIs_of_rowMatch hr),
        dbSet_cons_pos _ v hr]
    · by_cases h1 : tableIs t r = true
      · rw [dbSet_cons_neg rest v hr, List.filter_cons_of_pos h1,
          List.filter_cons_of_pos h1, dbSet_cons_neg _ v hr, ih]
      · rw [dbSet_cons_neg rest v hr,
          List.filter_cons_of_neg (by simpa using h1),
          List.filter_cons_of_neg (by simpa using h1), ih]

theorem filter_dbSet_ne (db : DB) {t t' : String} (k : KCol) (v : VCol)
    (h : t ≠ t') :
    (dbSet db t' k v).filter (tableIs t) = db.filter (tableIs t) := by
  have hm : ¬tableIs t (⟨t', k, v⟩ : Row) = true := by
    simp [tableIs, Ne.symm h]
  induction db with
  | nil =>
    rw [show dbSet ([] : DB) t' k v = [⟨t', k, v⟩] from rfl,
      List.filter_cons_of_neg (by simpa using hm)]
  | cons r rest ih =>
    by_cases hr : rowMatch t' k r = true
    · have h1 : ¬tableIs t r = true := by
        simp [tableIs, (rowMatch_iff.mp hr).1, Ne.symm h]
      rw [dbSet_cons_pos rest v hr,
        List.filter_cons_of_neg (by simpa using hm),
        List.filter_cons_of_neg (by simpa using h1)]
    · by_cases h1 : tableIs t r = true
      · rw [dbSet_cons_neg rest v hr, List.filter_cons_of_pos h1,
          List.filter_cons_of_pos h1, ih]
      · rw [dbSet_cons_neg rest v hr,
          List.filter_cons_of_neg (by simpa using h1),
          List.filter_cons_of_neg (by simpa using h1), ih]

theorem filter_dbDel_same (db : DB) (t : String) (k : KCol) :
    (dbDel db t k).filter (tableIs t) = dbDel (db.filter (tableIs t)) t k := by
  unfold dbDel
  induction db with
  | nil => rfl
  | cons r rest ih =>
    by_cases hr : rowMatch t k r = true
    · rw [List.filter_cons_of_neg (by simpa using hr),
        List.filter_cons_of_pos (tableIs_of_rowMatch hr),
        List.filter_cons_of_neg (by simpa using hr), ih]
    · by_cases h1 : tableIs t r = true
      · rw [List.filter_cons_of_pos (by simpa using hr),
          List.filter_cons_of_pos h1, List.filter_cons_of_pos h1,
          List.filter_cons_of_pos (by simpa using hr), ih]
      · rw [List.filter_cons_of_pos (by simpa using hr),
          List.filter_cons_of_neg (by simpa using h1),
          List.filter_cons_of_neg (by simpa using h1), ih]

/-- The config-table key of a yubikey UnlockRecord is never the
password one. -/
theorem ykName_ne_password (n : Nat) : ykName n ≠ "password" := by
  intro h
  have h2 : ("yubikey:" ++ toString n).data = "password".data :=
    congrArg String.data h
  rw [String.data_append] at h2
  have h3 : "yubikey:".data = 'y' :: "ubikey:".data := rfl
  rw [h3] at h2
  have h4 : "password".data = 'p' :: "assword".data := rfl
  rw [h4, List.cons_append] at h2
  exact absurd (List.head_eq_of_cons_eq h2) (by decide)

/-- Unlocking by password succeeds and returns the wrapped keys whenever
the stored password record's two ciphertexts were produced under the KEK
the given password derives. -/
theorem gkbp_ok (db : DB) (pw prompted : String) (rec : PasswordRecord)
    (hget : dbGet db "config" (KCol.name "password") = some (VCol.pw rec))
    (hname : rec.name_key.key
      = get_user_decrypt_key (utf8 (nfkc pw)) rec.salt rec.keysize rec.opslimit rec.memlimit)
    (hvalue : rec.value_key.key
      = get_user_decrypt_key (utf8 (nfkc pw)) rec.salt rec.keysize rec.opslimit rec.memlimit) :
    get_keys_by_password db (some pw) prompted
      = .ok (rec.name_key.msg, rec.value_key.msg) := by
  unfold get_keys_by_password kvGet
  rw [hget]
  simp only [pwRecord, Option.getD_some, sbDecrypt]
  rw [hname, hvalue]
  simp

/-- Password unlock only looks at the stored password record. -/
theorem gkbp_congr (db1 db2 : DB) (password : Option String) (prompted : String)
    (h : kvGet db1 "config" (KCol.name "password")
      = kvGet db2 "config" (KCol.name "password")) :
    get_keys_by_password db1 password prompted
      = get_keys_by_password db2 password prompted := by
  unfold get_keys_by_password
  rw [h]

/-- Keyring unlock succeeds and returns the wrapped keys whenever the
stored keyring record's ciphertexts were produced under the key held in
the OS keyring. -/
theorem gkbk_ok (db : DB) (ks : KeyringState) (dk : Bytes) (rec : KeyringRecord)
    (hget : dbGet db "config" (KCol.name "keyring") = some (VCol.kr rec))
    (hstored : ks.stored = some dk)
    (hname : rec.name_key.key = dk) (hvalue : rec.value_key.key = dk) :
    get_keys_by_keyring db ks = .ok (rec.name_key.msg, rec.value_key.msg) := by
  unfold get_keys_by_keyring kvGet
  rw [hget]
  simp only [krRecord, hstored, sbDecrypt]
  rw [hname, hvalue]
  simp

/-- Yubikey unlock succeeds and returns the wrapped keys whenever the
stored record's ciphertexts were produced under the KEK the device
re-derives from the record's own challenge, salt and cost parameters. -/
theorem gkbyk_ok (db : DB) (dev : YubiDevice) (rec : YubikeyRecord)
    (hget : dbGet db "config" (KCol.name (ykName dev.serial))
      = some (VCol.yk rec))
    (hname : rec.name_key.key = get_yubikey_decrypt_key dev rec.slot
      rec.challenge rec.salt rec.keysize rec.opslimit rec.memlimit)
    (hvalue : rec.value_key.key = get_yubikey_decrypt_key dev rec.slot
      rec.challenge rec.salt rec.keysize rec.opslimit rec.memlimit) :
    get_keys_by_yubikey db dev = .ok (rec.name_key.msg, rec.value_key.msg) := by
  unfold get_keys_by_yubikey kvGet
  rw [hget]
  simp only [ykRecord, sbDecrypt]
  rw [hname, hvalue]
  simp

/-- A get only looks at the row under the name's digest. -/
theorem ps_getitem_congr (ps : PSKeys) (db1 db2 : DB) (item : UVal)
    (h : kvGet db1 "params" (calc_key ps.name_key item)
      = kvGet db2 "params" (calc_key ps.name_key item)) :
    ps_getitem ps db1 item = ps_getitem ps db2 item := by
  unfold ps_getitem
  rw [h]

/-- C1: setting a name on an unlocked, writable parameter store succeeds,
stores under the name's digest the authenticated encryption of the JSON
pair `[name, value]` under the value key, and a subsequent get of the same
name returns exactly the value that was set (the second component of the
decrypted pair). -/
theorem set_get_roundtrip (ps : PSKeys) (db : DB) (item value : UVal)
    (nonce : Bytes) :
    (ps_setitem ps false db item value nonce).1 = .ok ()
    ∧ dbGet (ps_setitem ps false db item value nonce).2 "params"
        (calc_key ps.name_key item)
      = some (VCol.blob (sbEncrypt ps.value_key nonce (UVal.arr [item, value])))
    ∧ ps_getitem ps (ps_setitem ps false db item value nonce).2 item
      = .ok value := by
  have hset : (ps_setitem ps false db item value nonce).2
      = dbSet db "params" (calc_key ps.name_key item)
          (VCol.blob (sbEncrypt ps.value_key nonce (UVal.arr [item, value]))) := rfl
  refine ⟨rfl, ?_, ?_⟩
  · rw [hset, dbGet_dbSet_self]
  · rw [hset]
    simp [ps_getitem, kvGet, dbGet_dbSet_self, blobCipher, sbDecrypt,
      sbEncrypt, jsonIndex1]

/-- C3: while the global read-only flag is set (and its value in
config.py is `True`), both set and delete on the local store fail at the
read-only gate with the PermissionDenied error and return the database
unchanged: no row is written, deleted or modified. -/
theorem readonly_set_delete_rejected (ps : PSKeys) (db : DB)
    (item value : UVal) (nonce : Bytes) :
    PARAMETER_READ_ONLY = true
    ∧ ps_setitem ps PARAMETER_READ_ONLY db item value nonce
        = (.error PermissionDenied, db)
    ∧ ps_delitem ps PARAMETER_READ_ONLY db item
        = (.error PermissionDenied, db) :=
  ⟨rfl, rfl, rfl⟩

/-- C4: getting a name with no row under its digest fails with exactly
the NotFound error, and when a correctly encrypted row is present under
the correct keys, get succeeds (no other error). -/
theorem get_missing_notfound (ps : PSKeys) (db : DB) (item value : UVal)
    (nonce : Bytes) :
    (dbGet db "params" (calc_key ps.name_key item) = none →
      ps_getitem ps db item = .error NotFound)
    ∧ (dbGet db "params" (calc_key ps.name_key item)
          = some (VCol.blob (sbEncrypt ps.value_key nonce (UVal.arr [item, value]))) →
      ps_getitem ps db item = .ok value) := by
  constructor
  · intro h
    simp [ps_getitem, kvGet, h, NotFound]
  · intro h
    simp [ps_getitem, kvGet, h, blobCipher, sbDecrypt, sbEncrypt, jsonIndex1]

/-- Witness for C4 at concrete inputs: the empty table gives NotFound for
name "a"; a table holding the one correctly encrypted row for "a" gives
back its value 7. -/
theorem get_missing_notfound_witness :
    ps_getitem ⟨[1], [2]⟩ [] (UVal.str "a") = .error NotFound
    ∧ ps_getitem ⟨[1], [2]⟩
        [⟨"params", calc_key [1] (UVal.str "a"),
          VCol.blob (sbEncrypt [2] [5] (UVal.arr [UVal.str "a", UVal.num 7]))⟩]
        (UVal.str "a")
      = .ok (UVal.num 7) :=
  ⟨(get_missing_notfound ⟨[1], [2]⟩ [] (UVal.str "a") (UVal.num 7) [5]).1 rfl,
   (get_missing_notfound ⟨[1], [2]⟩
      [⟨"params", calc_key [1] (UVal.str "a"),
        VCol.blob (sbEncrypt [2] [5] (UVal.arr [UVal.str "a", UVal.num 7]))⟩]
      (UVal.str "a") (UVal.num 7) [5]).2 (by decide)⟩

/-- C9: with the read-only flag set, the interceptor's set and delete
raise `ParameterStoreException` before `_load_store` runs: the result is
the same for every possible loader outcome (so no unlock, prompt or
database write can have happened), and the interceptor keeps its current
backend state (in particular it stays Locked when no backend is loaded). -/
theorem interceptor_readonly_no_load (loader : Except PyExc PSKeys)
    (st : Option PSKeys) (db : DB) (item value : UVal) (nonce : Bytes) :
    interceptor_setitem true loader st db item value nonce
      = (.error PS_READ_ONLY_EXC, st, db)
    ∧ interceptor_delitem true loader st db item
      = (.error PS_READ_ONLY_EXC, st, db) :=
  ⟨rfl, rfl⟩

/-- C10: the read-only rejection in the local store and the missing-name
failure are both `KeyError`s — the same Python exception class, so a
caller cannot tell PermissionDenied from NotFound by exception type
alone. -/
theorem readonly_and_notfound_same_class (ps : PSKeys) (db : DB)
    (item value : UVal) (nonce : Bytes)
    (h : dbGet db "params" (calc_key ps.name_key item) = none) :
    (ps_setitem ps true db item value nonce).1 = .error PermissionDenied
    ∧ ps_getitem ps db item = .error NotFound
    ∧ PermissionDenied.excClass = "KeyError"
    ∧ NotFound.excClass = "KeyError"
    ∧ PermissionDenied.excClass = NotFound.excClass := by
  refine ⟨rfl, ?_, rfl, rfl, rfl⟩
  simp [ps_getitem, kvGet, h, NotFound]

/-- Witness for C10 at a concrete input: the empty table. -/
theorem readonly_and_notfound_same_class_witness :
    (ps_setitem ⟨[], []⟩ true [] (UVal.str "x") (UVal.str "y") []).1
      = .error PermissionDenied
    ∧ ps_getitem ⟨[], []⟩ [] (UVal.str "x") = .error NotFound
    ∧ PermissionDenied.excClass = "KeyError"
    ∧ NotFound.excClass = "KeyError"
    ∧ PermissionDenied.excClass = NotFound.excClass :=
  readonly_and_notfound_same_class ⟨[], []⟩ [] (UVal.str "x") (UVal.str "y")
    [] rfl

/-- C6: `init` fails with AlreadyInitialized when a password UnlockRecord
exists, fails with InputMismatch when the two entered passwords differ,
writes nothing in either failure case, and on success writes the password
UnlockRecord wrapping exactly the fresh NameKey/ValueKey under the
password-derived KEK, points the default-open-method at "password", and
leaves the store unlockable by that password. -/
theorem init_spec (db : DB) (p1 p2 : String) (r : InitRandom)
    (prompted : String) :
    (dbContains db "config" (KCol.name "password") = true →
      init db p1 p2 r = (.error (PyExc.valueError "Database already initialized"), db))
    ∧ (dbContains db "config" (KCol.name "password") = false → p1 ≠ p2 →
      init db p1 p2 r = (.error (PyExc.valueError "Passwords do not match"), db))
    ∧ (dbContains db "config" (KCol.name "password") = false → p1 = p2 →
      (init db p1 p2 r).1 = .ok ()
      ∧ dbGet (init db p1 p2 r).2 "config" (KCol.name "default-open-method")
          = some (VCol.jstr "password")
      ∧ dbGet (init db p1 p2 r).2 "config" (KCol.name "password")
          = some (VCol.pw ⟨r.salt, KEY_SIZE, OPSLIMIT_SENSITIVE, MEMLIMIT_SENSITIVE,
              sbEncrypt (get_user_decrypt_key (utf8 (nfkc p1)) r.salt KEY_SIZE
                OPSLIMIT_SENSITIVE MEMLIMIT_SENSITIVE) r.name_nonce r.name_key,
              sbEncrypt (get_user_decrypt_key (utf8 (nfkc p1)) r.salt KEY_SIZE
                OPSLIMIT_SENSITIVE MEMLIMIT_SENSITIVE) r.value_nonce r.value_key⟩)
      ∧ get_keys_by_password (init db p1 p2 r).2 (some p1) prompted
          = .ok (r.name_key, r.value_key)) := by
  refine ⟨fun hc => ?_, fun hc hp => ?_, fun hc hp => ?_⟩
  · unfold init
    rw [if_pos hc]
  · unfold init
    rw [if_neg (by simp [hc]), if_pos hp]
  · subst hp
    have hinit : init db p1 p1 r
        = (.ok (), dbSet (dbSet db "config" (KCol.name "password")
            (VCol.pw ⟨r.salt, KEY_SIZE, OPSLIMIT_SENSITIVE, MEMLIMIT_SENSITIVE,
              sbEncrypt (get_user_decrypt_key (utf8 (nfkc p1)) r.salt KEY_SIZE
                OPSLIMIT_SENSITIVE MEMLIMIT_SENSITIVE) r.name_nonce r.name_key,
              sbEncrypt (get_user_decrypt_key (utf8 (nfkc p1)) r.salt KEY_SIZE
                OPSLIMIT_SENSITIVE MEMLIMIT_SENSITIVE) r.value_nonce r.value_key⟩))
            "config" (KCol.name "default-open-method") (VCol.jstr "password")) := by
      unfold init
      rw [if_neg (by simp [hc]), if_neg (by simp)]
    refine ⟨by rw [hinit], ?_, ?_, ?_⟩
    · rw [hinit]
      exact dbGet_dbSet_self ..
    · rw [hinit]
      rw [dbGet_dbSet_ne _ _ (by decide), dbGet_dbSet_self]
    · rw [hinit]
      have hget2 : dbGet (dbSet (dbSet db "config" (KCol.name "password")
            (VCol.pw ⟨r.salt, KEY_SIZE, OPSLIMIT_SENSITIVE, MEMLIMIT_SENSITIVE,
              sbEncrypt (get_user_decrypt_key (utf8 (nfkc p1)) r.salt KEY_SIZE
                OPSLIMIT_SENSITIVE MEMLIMIT_SENSITIVE) r.name_nonce r.name_key,
              sbEncrypt (get_user_decrypt_key (utf8 (nfkc p1)) r.salt KEY_SIZE
                OPSLIMIT_SENSITIVE MEMLIMIT_SENSITIVE) r.value_nonce r.value_key⟩))
            "config" (KCol.name "default-open-method") (VCol.jstr "password"))
            "config" (KCol.name "password")
          = some (VCol.pw ⟨r.salt, KEY_SIZE, OPSLIMIT_SENSITIVE, MEMLIMIT_SENSITIVE,
              sbEncrypt (get_user_decrypt_key (utf8 (nfkc p1)) r.salt KEY_SIZE
                OPSLIMIT_SENSITIVE MEMLIMIT_SENSITIVE) r.name_nonce r.name_key,
              sbEncrypt (get_user_decrypt_key (utf8 (nfkc p1)) r.salt KEY_SIZE
                OPSLIMIT_SENSITIVE MEMLIMIT_SENSITIVE) r.value_nonce r.value_key⟩) := by
        rw [dbGet_dbSet_ne _ _ (show ¬("config" = "config"
            ∧ KCol.name "password" = KCol.name "default-open-method") by decide),
          dbGet_dbSet_self]
      exact gkbp_ok _ p1 prompted _ hget2 rfl rfl

/-- Witness for C6 at concrete inputs: an already-initialized table, a
password mismatch on the empty table, and a successful initialization. -/
theorem init_spec_witness :
    init [⟨"config", KCol.name "password", VCol.jstr "x"⟩] "a" "b"
        ⟨[1], [2], [3], [4], [5]⟩
      = (.error (PyExc.valueError "Database already initialized"),
         [⟨"config", KCol.name "password", VCol.jstr "x"⟩])
    ∧ init [] "a" "b" ⟨[1], [2], [3], [4], [5]⟩
      = (.error (PyExc.valueError "Passwords do not match"), [])
    ∧ (init [] "a" "a" ⟨[1], [2], [3], [4], [5]⟩).1 = .ok ()
    ∧ get_keys_by_password (init [] "a" "a" ⟨[1], [2], [3], [4], [5]⟩).2
        (some "a") "" = .ok ([2], [4]) :=
  ⟨(init_spec [⟨"config", KCol.name "password", VCol.jstr "x"⟩] "a" "b"
      ⟨[1], [2], [3], [4], [5]⟩ "").1 (by decide),
   (init_spec [] "a" "b" ⟨[1], [2], [3], [4], [5]⟩ "").2.1 (by decide) (by decide),
   ((init_spec [] "a" "a" ⟨[1], [2], [3], [4], [5]⟩ "").2.2 (by decide) rfl).1,
   ((init_spec [] "a" "a" ⟨[1], [2], [3], [4], [5]⟩ "").2.2 (by decide) rfl).2.2.2⟩

/-- C7: the passphrase goes through NFKC normalization before key
derivation both in `init` and in `get_keys_by_password`; hence any two
NFKC-equivalent passwords derive the same KEK, behave identically at
unlock (one succeeds iff the other does, with the same keys), and
initialize identically. -/
theorem password_nfkc_normalization (p1 p2 : String) (h : nfkc p1 = nfkc p2) :
    (∀ (salt : Bytes) (keysize opslimit memlimit : Nat),
      get_user_decrypt_key (utf8 (nfkc p1)) salt keysize opslimit memlimit
        = get_user_decrypt_key (utf8 (nfkc p2)) salt keysize opslimit memlimit)
    ∧ (∀ (db : DB) (prompted : String),
      get_keys_by_password db (some p1) prompted
        = get_keys_by_password db (some p2) prompted)
    ∧ (∀ (db : DB) (r : InitRandom), init db p1 p1 r = init db p2 p2 r) := by
  refine ⟨fun salt ks o m => by rw [h], fun db prompted => ?_, fun db r => ?_⟩
  · unfold get_keys_by_password
    simp only [Option.getD_some, h]
  · unfold init
    by_cases hc : dbContains db "config" (KCol.name "password") = true
    · rw [if_pos hc, if_pos hc]
    · rw [if_neg hc, if_neg hc, if_neg (show ¬p1 ≠ p1 by simp),
        if_neg (show ¬p2 ≠ p2 by simp)]
      simp only [h]

/-- Witness for C7: the fi-ligature password "ﬁle" and its NFKC
normalization "file" are interchangeable at unlock and initialization. -/
theorem password_nfkc_normalization_witness :
    get_keys_by_password (init [] "file" "file" ⟨[1], [2], [3], [4], [5]⟩).2
        (some "ﬁle") ""
      = get_keys_by_password (init [] "file" "file" ⟨[1], [2], [3], [4], [5]⟩).2
        (some "file") ""
    ∧ init [] "ﬁle" "ﬁle" ⟨[1], [2], [3], [4], [5]⟩
      = init [] "file" "file" ⟨[1], [2], [3], [4], [5]⟩ :=
  ⟨(password_nfkc_normalization "ﬁle" "file" (by decide)).2.1
      (init [] "file" "file" ⟨[1], [2], [3], [4], [5]⟩).2 "",
   (password_nfkc_normalization "ﬁle" "file" (by decide)).2.2 []
      ⟨[1], [2], [3], [4], [5]⟩⟩

/-- The config-table key of a yubikey UnlockRecord is never the
default-open-method pointer. -/
theorem ykName_ne_dom (n : Nat) : ykName n ≠ "default-open-method" := by
  intro h
  have h2 : ("yubikey:" ++ toString n).data = "default-open-method".data :=
    congrArg String.data h
  rw [String.data_append] at h2
  have h3 : "yubikey:".data = 'y' :: "ubikey:".data := rfl
  rw [h3] at h2
  have h4 : "default-open-method".data = 'd' :: "efault-open-method".data := rfl
  rw [h4, List.cons_append] at h2
  exact absurd (List.head_eq_of_cons_eq h2) (by decide)

/-- C2: from a store unlockable by password, registering the keyring
method (when the OS keyring accepts the wrapping key) or the yubikey
method succeeds, after which the password method and the newly registered
method both resolve to the bit-identical NameKey/ValueKey, and every
secret readable before the registration reads back unchanged (the
registration only touches the config table). -/
theorem register_preserves_keys_and_secrets
    (db : DB) (pwd : Option String) (prompted : String) (nk vk : Bytes)
    (h : get_keys_by_password db pwd prompted = .ok (nk, vk)) :
    (∀ (ks : KeyringState) (key nn vn : Bytes), ks.set_ok = true →
      (register_keyring db ks pwd prompted key nn vn).1 = .ok ()
      ∧ get_keys_by_password
          (register_keyring db ks pwd prompted key nn vn).2.1 pwd prompted
        = .ok (nk, vk)
      ∧ get_keys_by_keyring (register_keyring db ks pwd prompted key nn vn).2.1
          (register_keyring db ks pwd prompted key nn vn).2.2
        = .ok (nk, vk)
      ∧ ∀ item : UVal,
          ps_getitem ⟨nk, vk⟩
            (register_keyring db ks pwd prompted key nn vn).2.1 item
          = ps_getitem ⟨nk, vk⟩ db item)
    ∧ (∀ (dev : YubiDevice) (slot : Nat) (challenge salt nn vn : Bytes),
      (register_yubikey db dev slot pwd prompted challenge salt nn vn).1 = .ok ()
      ∧ get_keys_by_password
          (register_yubikey db dev slot pwd prompted challenge salt nn vn).2
          pwd prompted
        = .ok (nk, vk)
      ∧ get_keys_by_yubikey
          (register_yubikey db dev slot pwd prompted challenge salt nn vn).2 dev
        = .ok (nk, vk)
      ∧ ∀ item : UVal,
          ps_getitem ⟨nk, vk⟩
            (register_yubikey db dev slot pwd prompted challenge salt nn vn).2 item
          = ps_getitem ⟨nk, vk⟩ db item) := by
  constructor
  · intro ks key nn vn hs
    have hreg : register_keyring db ks pwd prompted key nn vn
        = (.ok (), dbSet (dbSet db "config" (KCol.name "keyring")
            (VCol.kr ⟨sbEncrypt key nn nk, sbEncrypt key vn vk⟩))
            "config" (KCol.name "default-open-method") (VCol.jstr "keyring"),
           { ks with stored := some key }) := by
      unfold register_keyring
      rw [h, hs]
      rfl
    refine ⟨by rw [hreg], ?_, ?_, ?_⟩
    · rw [hreg]
      refine (gkbp_congr _ db pwd prompted ?_).trans h
      rw [kvGet_dbSet_ne _ _ (show ¬("config" = "config"
          ∧ KCol.name "password" = KCol.name "default-open-method") by decide),
        kvGet_dbSet_ne _ _ (show ¬("config" = "config"
          ∧ KCol.name "password" = KCol.name "keyring") by decide)]
    · rw [hreg]
      exact gkbk_ok _ _ key ⟨sbEncrypt key nn nk, sbEncrypt key vn vk⟩
        (by rw [dbGet_dbSet_ne _ _ (show ¬("config" = "config"
            ∧ KCol.name "keyring" = KCol.name "default-open-method") by decide),
          dbGet_dbSet_self]) rfl rfl rfl
    · intro item
      rw [hreg]
      apply ps_getitem_congr
      rw [kvGet_dbSet_ne _ _ (fun hc => absurd hc.1 (by decide)),
        kvGet_dbSet_ne _ _ (fun hc => absurd hc.1 (by decide))]
  · intro dev slot challenge salt nn vn
    have hreg : register_yubikey db dev slot pwd prompted challenge salt nn vn
        = (.ok (), dbSet (dbSet db "config" (KCol.name (ykName dev.serial))
            (VCol.yk ⟨slot, challenge, salt, KEY_SIZE, OPSLIMIT_SENSITIVE,
              MEMLIMIT_SENSITIVE,
              sbEncrypt (get_yubikey_decrypt_key dev slot challenge salt
                KEY_SIZE OPSLIMIT_SENSITIVE MEMLIMIT_SENSITIVE) nn nk,
              sbEncrypt (get_yubikey_decrypt_key dev slot challenge salt
                KEY_SIZE OPSLIMIT_SENSITIVE MEMLIMIT_SENSITIVE) vn vk⟩))
            "config" (KCol.name "default-open-method") (VCol.jstr "yubikey")) := by
      unfold register_yubikey
      rw [h]
    refine ⟨by rw [hreg], ?_, ?_, ?_⟩
    · rw [hreg]
      refine (gkbp_congr _ db pwd prompted ?_).trans h
      rw [kvGet_dbSet_ne _ _ (show ¬("config" = "config"
          ∧ KCol.name "password" = KCol.name "default-open-method") by decide),
        kvGet_dbSet_ne _ _ (show ¬("config" = "config"
            ∧ KCol.name "password" = KCol.name (ykName dev.serial)) from
          fun hc => ykName_ne_password dev.serial (KCol.name.inj hc.2).symm)]
    · rw [hreg]
      exact gkbyk_ok _ dev ⟨slot, challenge, salt, KEY_SIZE, OPSLIMIT_SENSITIVE,
          MEMLIMIT_SENSITIVE,
          sbEncrypt (get_yubikey_decrypt_key dev slot challenge salt
            KEY_SIZE OPSLIMIT_SENSITIVE MEMLIMIT_SENSITIVE) nn nk,
          sbEncrypt (get_yubikey_decrypt_key dev slot challenge salt
            KEY_SIZE OPSLIMIT_SENSITIVE MEMLIMIT_SENSITIVE) vn vk⟩
        (by rw [dbGet_dbSet_ne _ _ (show ¬("config" = "config"
              ∧ KCol.name (ykName dev.serial) = KCol.name "default-open-method") from
            fun hc => ykName_ne_dom dev.serial (KCol.name.inj hc.2)),
          dbGet_dbSet_self]) rfl rfl
    · intro item
      rw [hreg]
      apply ps_getitem_congr
      rw [kvGet_dbSet_ne _ _ (fun hc => absurd hc.1 (by decide)),
        kvGet_dbSet_ne _ _ (fun hc => absurd hc.1 (by decide))]

/-- Witness for C2 at concrete inputs: initialize with password "pw",
register the keyring method; both methods then yield the same keys and a
(missing) secret reads the same before and after. -/
theorem register_preserves_keys_and_secrets_witness :
    (register_keyring (init [] "pw" "pw" ⟨[1], [2], [3], [4], [5]⟩).2
        ⟨none, true⟩ (some "pw") "" [7] [8] [9]).1 = .ok ()
    ∧ get_keys_by_password
        (register_keyring (init [] "pw" "pw" ⟨[1], [2], [3], [4], [5]⟩).2
          ⟨none, true⟩ (some "pw") "" [7] [8] [9]).2.1 (some "pw") ""
      = .ok ([2], [4])
    ∧ get_keys_by_keyring
        (register_keyring (init [] "pw" "pw" ⟨[1], [2], [3], [4], [5]⟩).2
          ⟨none, true⟩ (some "pw") "" [7] [8] [9]).2.1
        (register_keyring (init [] "pw" "pw" ⟨[1], [2], [3], [4], [5]⟩).2
          ⟨none, true⟩ (some "pw") "" [7] [8] [9]).2.2
      = .ok ([2], [4])
    ∧ ps_getitem ⟨[2], [4]⟩
        (register_keyring (init [] "pw" "pw" ⟨[1], [2], [3], [4], [5]⟩).2
          ⟨none, true⟩ (some "pw") "" [7] [8] [9]).2.1 (UVal.str "a")
      = ps_getitem ⟨[2], [4]⟩ (init [] "pw" "pw" ⟨[1], [2], [3], [4], [5]⟩).2
          (UVal.str "a") :=
  have h : get_keys_by_password (init [] "pw" "pw" ⟨[1], [2], [3], [4], [5]⟩).2
      (some "pw") "" = .ok ([2], [4]) := by decide
  have T := (register_preserves_keys_and_secrets _ (some "pw") "" [2] [4] h).1
    ⟨none, true⟩ [7] [8] [9] rfl
  ⟨T.1, T.2.1, T.2.2.1, T.2.2.2 (UVal.str "a")⟩

/-- C5 evidence: on an initialized store, when `keyring.set_password`
fails, `register_keyring` has already written the "keyring" UnlockRecord
to the config table: the failed register leaves the config table changed,
with a record whose wrapping key never reached the OS keyring (so the
method is unusable), even though the default-open-method pointer is still
"password". -/
theorem register_keyring_unusable_record :
    (register_keyring (init [] "pw" "pw" ⟨[1], [2], [3], [4], [5]⟩).2
        ⟨none, false⟩ (some "pw") "" [7] [8] [9]).1 = .error KEYRING_SET_FAILED
    ∧ (register_keyring (init [] "pw" "pw" ⟨[1], [2], [3], [4], [5]⟩).2
        ⟨none, false⟩ (some "pw") "" [7] [8] [9]).2.1
      ≠ (init [] "pw" "pw" ⟨[1], [2], [3], [4], [5]⟩).2
    ∧ dbGet (init [] "pw" "pw" ⟨[1], [2], [3], [4], [5]⟩).2 "config"
        (KCol.name "keyring") = none
    ∧ dbGet (register_keyring (init [] "pw" "pw" ⟨[1], [2], [3], [4], [5]⟩).2
          ⟨none, false⟩ (some "pw") "" [7] [8] [9]).2.1 "config"
        (KCol.name "keyring")
      = some (VCol.kr ⟨sbEncrypt [7] [8] [2], sbEncrypt [7] [9] [4]⟩)
    ∧ dbGet (register_keyring (init [] "pw" "pw" ⟨[1], [2], [3], [4], [5]⟩).2
          ⟨none, false⟩ (some "pw") "" [7] [8] [9]).2.1 "config"
        (KCol.name "default-open-method")
      = some (VCol.jstr "password")
    ∧ get_keys_by_keyring
        (register_keyring (init [] "pw" "pw" ⟨[1], [2], [3], [4], [5]⟩).2
          ⟨none, false⟩ (some "pw") "" [7] [8] [9]).2.1
        (register_keyring (init [] "pw" "pw" ⟨[1], [2], [3], [4], [5]⟩).2
          ⟨none, false⟩ (some "pw") "" [7] [8] [9]).2.2
      = .error (PyExc.typeError
          "argument should be a bytes-like object or ASCII string, not NoneType") :=
  ⟨by decide, by decide, by decide, by decide, by decide, by decide⟩

/-- A stored secret row matches the digest of name `n` exactly when it is
`n`'s row (keyed-digest injectivity). -/
theorem rowMatch_encRow_pos (ps : PSKeys) {n : UVal} {e : SecretEntry}
    (he : e.name = n) :
    rowMatch "params" (calc_key ps.name_key n) (encRow ps e) = true := by
  subst he
  simp [rowMatch, encRow, calc_key]

/-- A stored secret row for a different name never matches the digest. -/
theorem rowMatch_encRow_neg (ps : PSKeys) {n : UVal} {e : SecretEntry}
    (he : ¬e.name = n) :
    ¬rowMatch "params" (calc_key ps.name_key n) (encRow ps e) = true := by
  intro hc
  have h2 := (rowMatch_iff.mp hc).2
  exact he (KCol.dg.inj h2).2

/-- Upserting a secret into an encoded params table is the encoding of
the reference dictionary update. -/
theorem dbSet_encRows (ps : PSKeys) (n v : UVal) (nonce : Bytes) :
    ∀ m : List SecretEntry,
    dbSet (m.map (encRow ps)) "params" (calc_key ps.name_key n)
        (VCol.blob (sbEncrypt ps.value_key nonce (UVal.arr [n, v])))
      = (entriesSet m n v nonce).map (encRow ps)
  | [] => rfl
  | e :: rest => by
      by_cases he : e.name = n
      · rw [List.map_cons, dbSet_cons_pos _ _ (rowMatch_encRow_pos ps he),
          show entriesSet (e :: rest) n v nonce = ⟨n, v, nonce⟩ :: rest from by
            simp [entriesSet, he],
          List.map_cons]
        rfl
      · rw [List.map_cons, dbSet_cons_neg _ _ (rowMatch_encRow_neg ps he),
          dbSet_encRows ps n v nonce rest,
          show entriesSet (e :: rest) n v nonce = e :: entriesSet rest n v nonce from by
            simp [entriesSet, he],
          List.map_cons]

/-- Deleting a secret from an encoded params table is the encoding of the
reference dictionary delete. -/
theorem dbDel_encRows (ps : PSKeys) (n : UVal) :
    ∀ m : List SecretEntry,
    dbDel (m.map (encRow ps)) "params" (calc_key ps.name_key n)
      = (entriesDel m n).map (encRow ps)
  | [] => rfl
  | e :: rest => by
      unfold dbDel entriesDel
      by_cases he : e.name = n
      · rw [List.map_cons,
          List.filter_cons_of_neg (by simp [rowMatch_encRow_pos ps he]),
          List.filter_cons_of_neg (by simp [he])]
        exact dbDel_encRows ps n rest
      · rw [List.map_cons,
          List.filter_cons_of_pos (by simpa using rowMatch_encRow_neg ps he),
          List.filter_cons_of_pos (by simpa using he),
          List.map_cons]
        rw [show List.filter (fun r => !rowMatch "params" (calc_key ps.name_key n) r)
            (List.map (encRow ps) rest)
          = dbDel (List.map (encRow ps) rest) "params" (calc_key ps.name_key n) from rfl,
          dbDel_encRows ps n rest]
        rfl

/-- Scanning an encoded params table decrypts back exactly the reference
dictionary's (name, value) pairs, in order. -/
theorem ps_items_list_enc (ps : PSKeys) :
    ∀ m : List SecretEntry,
    ps_items_list ps.value_key ((m.map (encRow ps)).map Row.value)
      = .ok (entryPairs m)
  | [] => rfl
  | e :: rest => by
      rw [List.map_cons, List.map_cons]
      simp only [ps_items_list, decodeItem, blobCipher, sbDecrypt, encRow,
        sbEncrypt]
      rw [if_pos trivial]
      simp only [ps_items_list_enc ps rest]
      rfl

/-- Invariant of running a trace: the params-table fragment stays the
encoding of the reference dictionary. -/
theorem run_ops_paramsRows (ps : PSKeys) :
    ∀ (ops : List POp) (m : List SecretEntry) (db : DB),
    paramsRows db = m.map (encRow ps) →
    paramsRows (run_ops ps db ops) = (model_run m ops).map (encRow ps)
  | [], _, _, h => h
  | .set n v nonce :: rest, m, db, h => by
      show paramsRows (run_ops ps (ps_setitem ps false db n v nonce).2 rest)
        = (model_run (entriesSet m n v nonce) rest).map (encRow ps)
      apply run_ops_paramsRows ps rest (entriesSet m n v nonce)
      show paramsRows (dbSet db "params" (calc_key ps.name_key n)
          (VCol.blob (sbEncrypt ps.value_key nonce (UVal.arr [n, v]))))
        = (entriesSet m n v nonce).map (encRow ps)
      unfold paramsRows
      rw [filter_dbSet_same,
        show List.filter (tableIs "params") db = m.map (encRow ps) from h,
        dbSet_encRows]
  | .del n :: rest, m, db, h => by
      show paramsRows (run_ops ps (ps_delitem ps false db n).2 rest)
        = (model_run (entriesDel m n) rest).map (encRow ps)
      apply run_ops_paramsRows ps rest (entriesDel m n)
      show paramsRows (dbDel db "params" (calc_key ps.name_key n))
        = (entriesDel m n).map (encRow ps)
      unfold paramsRows
      rw [filter_dbDel_same,
        show List.filter (tableIs "params") db = m.map (encRow ps) from h,
        dbDel_encRows]

/-- Membership in a reference dictionary update. -/
theorem mem_entriesSet (e' : SecretEntry) :
    ∀ (m : List SecretEntry) (n v : UVal) (nonce : Bytes),
    e' ∈ entriesSet m n v nonce → e' ∈ m ∨ e' = ⟨n, v, nonce⟩
  | [], n, v, nonce => by
      intro h
      simp [entriesSet] at h
      exact Or.inr h
  | e :: rest, n, v, nonce => by
      intro h
      by_cases he : e.name = n
      · simp only [entriesSet, if_pos he] at h
        rcases List.mem_cons.mp h with h | h
        · exact Or.inr h
        · exact Or.inl (List.mem_cons_of_mem _ h)
      · simp only [entriesSet, if_neg he] at h
        rcases List.mem_cons.mp h with h | h
        · exact Or.inl (h ▸ List.mem_cons_self _ _)
        · rcases mem_entriesSet e' rest n v nonce h with h2 | h2
          · exact Or.inl (List.mem_cons_of_mem _ h2)
          · exact Or.inr h2

/-- The dictionary update keeps names duplicate-free. -/
theorem entriesSet_names_nodup :
    ∀ (m : List SecretEntry) (n v : UVal) (nonce : Bytes),
    (m.map SecretEntry.name).Nodup →
    ((entriesSet m n v nonce).map SecretEntry.name).Nodup
  | [], n, v, nonce => by
      intro _
      simp [entriesSet]
  | e :: rest, n, v, nonce => by
      intro h
      rw [List.map_cons, List.nodup_cons] at h
      by_cases he : e.name = n
      · rw [show entriesSet (e :: rest) n v nonce = ⟨n, v, nonce⟩ :: rest from by
            simp [entriesSet, he],
          List.map_cons, List.nodup_cons]
        exact ⟨he ▸ h.1, h.2⟩
      · rw [show entriesSet (e :: rest) n v nonce = e :: entriesSet rest n v nonce from by
            simp [entriesSet, he],
          List.map_cons, List.nodup_cons]
        refine ⟨?_, entriesSet_names_nodup rest n v nonce h.2⟩
        intro hmem
        rcases List.mem_map.mp hmem with ⟨e', he', hname⟩
        rcases mem_entriesSet e' rest n v nonce he' with h2 | h2
        · exact h.1 (List.mem_map.mpr ⟨e', h2, hname⟩)
        · rw [h2] at hname
          exact he hname.symm

/-- The dictionary delete keeps names duplicate-free. -/
theorem entriesDel_names_nodup (m : List SecretEntry) (n : UVal)
    (h : (m.map SecretEntry.name).Nodup) :
    ((entriesDel m n).map SecretEntry.name).Nodup :=
  h.sublist (List.Sublist.map _ (List.filter_sublist _))

/-- The dictionary a trace denotes has duplicate-free names. -/
theorem model_run_names_nodup :
    ∀ (ops : List POp) (m : List SecretEntry),
    (m.map SecretEntry.name).Nodup →
    ((model_run m ops).map SecretEntry.name).Nodup
  | [], _, h => h
  | .set n v nonce :: rest, m, h =>
      model_run_names_nodup rest _ (entriesSet_names_nodup m n v nonce h)
  | .del n :: rest, m, h =>
      model_run_names_nodup rest _ (entriesDel_names_nodup m n h)

/-- C8: starting from a store with no secrets, after any trace of
set/delete operations, `items` yields exactly the (name, value) pairs
that were set and not deleted — the reference dictionary the trace
denotes, each name exactly once — and `keys`/`values` are exactly the
first and second projections of the sequence `items` yields. -/
theorem enumeration_complete (ps : PSKeys) (ops : List POp) (db0 : DB)
    (h0 : paramsRows db0 = []) :
    ps_items ps (run_ops ps db0 ops) = .ok (entryPairs (model_run [] ops))
    ∧ ps_keys ps (run_ops ps db0 ops)
      = .ok ((entryPairs (model_run [] ops)).map Prod.fst)
    ∧ ps_values ps (run_ops ps db0 ops)
      = .ok ((entryPairs (model_run [] ops)).map Prod.snd)
    ∧ ((model_run [] ops).map SecretEntry.name).Nodup := by
  have hrows : paramsRows (run_ops ps db0 ops)
      = (model_run [] ops).map (encRow ps) :=
    run_ops_paramsRows ps ops [] db0 (by rw [h0]; rfl)
  have hitems : ps_items ps (run_ops ps db0 ops)
      = .ok (entryPairs (model_run [] ops)) := by
    unfold ps_items dbValues
    rw [show List.filter (tableIs "params") (run_ops ps db0 ops)
        = (model_run [] ops).map (encRow ps) from hrows]
    exact ps_items_list_enc ps (model_run [] ops)
  refine ⟨hitems, ?_, ?_, model_run_names_nodup ops [] (by simp)⟩
  · unfold ps_keys
    rw [hitems]
    rfl
  · unfold ps_values
    rw [hitems]
    rfl

/-- Witness for C8 at a concrete trace: set a=1, b=2, c=3, overwrite
a=10, delete b; enumeration returns exactly a=10 and c=3. -/
theorem enumeration_complete_witness :
    ps_items ⟨[1], [2]⟩ (run_ops ⟨[1], [2]⟩ []
        [.set (UVal.str "a") (UVal.num 1) [21],
         .set (UVal.str "b") (UVal.num 2) [22],
         .set (UVal.str "c") (UVal.num 3) [23],
         .set (UVal.str "a") (UVal.num 10) [24],
         .del (UVal.str "b")])
      = .ok [(UVal.str "a", UVal.num 10), (UVal.str "c", UVal.num 3)]
    ∧ ps_keys ⟨[1], [2]⟩ (run_ops ⟨[1], [2]⟩ []
        [.set (UVal.str "a") (UVal.num 1) [21],
         .set (UVal.str "b") (UVal.num 2) [22],
         .set (UVal.str "c") (UVal.num 3) [23],
         .set (UVal.str "a") (UVal.num 10) [24],
         .del (UVal.str "b")])
      = .ok [UVal.str "a", UVal.str "c"]
    ∧ ps_values ⟨[1], [2]⟩ (run_ops ⟨[1], [2]⟩ []
        [.set (UVal.str "a") (UVal.num 1) [21],
         .set (UVal.str "b") (UVal.num 2) [22],
         .set (UVal.str "c") (UVal.num 3) [23],
         .set (UVal.str "a") (UVal.num 10) [24],
         .del (UVal.str "b")])
      = .ok [UVal.num 10, UVal.num 3] :=
  have T := enumeration_complete ⟨[1], [2]⟩
    [.set (UVal.str "a") (UVal.num 1) [21],
     .set (UVal.str "b") (UVal.num 2) [22],
     .set (UVal.str "c") (UVal.num 3) [23],
     .set (UVal.str "a") (UVal.num 10) [24],
     .del (UVal.str "b")] [] rfl
  ⟨T.1.trans (by decide), T.2.1.trans (by decide), T.2.2.1.trans (by decide)⟩
